import Mathlib

/-!
# go-web-socket: the subscriber registry, the fan-out notifier and the HTTP handlers

A shallow embedding of `internal/api/api.go`.

* A Go `map[K]V` is an `AList`: a list of entries without duplicate keys.  Go iterates a map in
  an unspecified order; the embedding iterates in the order of the entries, and no statement
  below depends on that order.
* A `*websocket.Conn` is a pointer; it is embedded by its identity, a natural number.
* A `context.CancelFunc` is embedded by the identity of the context it cancels.
* Every access to `subscribers` happens with `mu` held, so each locked section of the source is
  one atomic function on the registry.
* Effects on the outside world (datastore queries, HTTP responses, websocket writes, spawned
  goroutines) are recorded, in program order, in a trace.
-/

namespace Api

/-! ## Data model -/

/-- Identity of a `*websocket.Conn`. -/
abbrev Conn := Nat

/-- Identity of a `context.CancelFunc` (the context it cancels). -/
abbrev CancelFunc := Nat

/-- The Go type `uuid.UUID`, an array of 16 bytes. -/
abbrev UUID := List Nat

/-- The Go type `map[*websocket.Conn]context.CancelFunc`. -/
abbrev ConnSet := AList (fun _ : Conn => CancelFunc)

/-- The Go type `map[string]map[*websocket.Conn]context.CancelFunc`. -/
abbrev Registry := AList (fun _ : String => ConnSet)

/-- The struct `MessageMessageCreated`. -/
structure MessageMessageCreated where
  ID : String
  Message : String
  deriving DecidableEq, Repr

/-- The struct `Message`.  The field `Value` has the Go type `any`; the only value the program
ever stores in it is a `MessageMessageCreated`. -/
structure Message where
  Kind : String
  Value : MessageMessageCreated
  RoomId : String
  deriving DecidableEq, Repr

/-- The constant `MessageKindMessageCreated`. -/
def MessageKindMessageCreated : String := "message_created"

/-- The mutable part of the struct `apiHandler`: the field `subscribers`, guarded by `mu`. -/
structure apiHandler where
  subscribers : Registry
  deriving DecidableEq

/-- The registry built by `NewHandler`: `make(map[string]map[*websocket.Conn]context.CancelFunc)`. -/
def NewHandler : apiHandler := ⟨∅⟩

/-! ## The library `github.com/google/uuid`

`uuid.Parse` and `UUID.String` belong to an imported library, not to this repository.  They are
embedded after the library's source, on the UTF-8 bytes of the string (Go's `len(s)` and `s[i]`
are byte operations). -/

/-- The bytes of a Go string. -/
def goBytes (s : String) : List Nat :=
  s.data.flatMap fun c => (String.utf8EncodeChar c).map UInt8.toNat

/-- The table `xvalues` of the library: the value of a hexadecimal digit, 255 for any other
byte. -/
def xvalues (b : Nat) : Nat :=
  if 48 ≤ b ∧ b ≤ 57 then b - 48
  else if 65 ≤ b ∧ b ≤ 70 then b - 55
  else if 97 ≤ b ∧ b ≤ 102 then b - 87
  else 255

/-- The library function `xtob`: two hexadecimal digits to one byte. -/
def xtob (x1 x2 : Nat) : Nat × Bool :=
  let b1 := xvalues x1
  let b2 := xvalues x2
  (((b1 * 16) % 256) ||| b2, b1 != 255 && b2 != 255)

/-- The zero value of `uuid.UUID`. -/
def UUID.Nil : UUID := List.replicate 16 0

/-- Lower-case form of an ASCII byte. -/
def asciiLower (b : Nat) : Nat := if 65 ≤ b ∧ b ≤ 90 then b + 32 else b

/-- The loop of `uuid.Parse` over the hyphenated form: `offs` are the remaining offsets of the
digit pairs, `i` the index of the next byte of `uuid`.  The second component is `false` when a
pair is not hexadecimal; the bytes decoded so far are returned with it. -/
def parseHyphenated (s : List Nat) : List Nat → Nat → UUID → UUID × Bool
  | [], _, uuid => (uuid, true)
  | x :: offs, i, uuid =>
    match xtob (s.getD x 0) (s.getD (x + 1) 0) with
    | (v, true) => parseHyphenated s offs (i + 1) (uuid.set i v)
    | (_, false) => (uuid, false)

/-- The loop of `uuid.Parse` over the form of 32 digits: here the byte is stored before the test. -/
def parsePlain (s : List Nat) : Nat → Nat → UUID → UUID × Bool
  | 0, _, uuid => (uuid, true)
  | n + 1, i, uuid =>
    match xtob (s.getD (i * 2) 0) (s.getD (i * 2 + 1) 0) with
    | (v, true) => parsePlain s n (i + 1) (uuid.set i v)
    | (v, false) => (uuid.set i v, false)

/-- The library function `uuid.Parse`.  The result is the Go pair `(UUID, error)`: the second
component is `true` when the error is `nil`. -/
def uuidParse (str : String) : UUID × Bool :=
  let s := goBytes str
  let hyphenated (s : List Nat) : UUID × Bool :=
    if s.getD 8 0 != 45 || s.getD 13 0 != 45 || s.getD 18 0 != 45 || s.getD 23 0 != 45 then
      (UUID.Nil, false)
    else
      parseHyphenated s [0, 2, 4, 6, 9, 11, 14, 16, 19, 21, 24, 26, 28, 30, 32, 34] 0 UUID.Nil
  if s.length = 36 then hyphenated s
  else if s.length = 36 + 9 then
    if (s.take 9).map asciiLower != goBytes "urn:uuid:" then (UUID.Nil, false)
    else hyphenated (s.drop 9)
  else if s.length = 36 + 2 then hyphenated (s.drop 1)
  else if s.length = 32 then parsePlain s 16 0 UUID.Nil
  else (UUID.Nil, false)

/-- A lower-case hexadecimal digit, as a character. -/
def hexDigit (n : Nat) : Char := "0123456789abcdef".data.getD n '0'

/-- The Go function `hex.Encode` on a slice of bytes. -/
def hexEncode (bs : List Nat) : List Char :=
  bs.flatMap fun b => [hexDigit (b / 16), hexDigit (b % 16)]

/-- The library method `UUID.String`: `xxxxxxxx-xxxx-xxxx-xxxx-xxxxxxxxxxxx`. -/
def uuidString (uuid : UUID) : String :=
  String.mk (hexEncode (uuid.take 4) ++ '-' :: hexEncode ((uuid.drop 4).take 2)
    ++ '-' :: hexEncode ((uuid.drop 6).take 2) ++ '-' :: hexEncode ((uuid.drop 8).take 2)
    ++ '-' :: hexEncode ((uuid.drop 10).take 6))

/-! ## The outside world -/

/-- The Go value `error` returned by a datastore query, as far as the handlers tell errors
apart: `errors.Is(err, pgx.ErrNoRows)` or not. -/
inductive DbError where
  | ErrNoRows
  | other
  deriving DecidableEq, Repr

/-- Modelled from the spec: the row type `pgstore.Message` is declared in the package
`internal/store/pgstore`, which is missing.  The handlers read one field of it, `RoomID`. -/
structure pgstore.Message where
  RoomID : UUID
  deriving DecidableEq, Repr

/-- Modelled from the spec: the datastore `pgstore.Queries` is declared in the package
`internal/store/pgstore`, which is missing.  It is taken as a parameter: a state `σ` and, for
each query the handlers call, a function from the arguments and the state to the Go result
pair and the next state. -/
structure pgstore.Queries (σ : Type) where
  GetRoom : UUID → σ → Except DbError Unit × σ
  InsertMessage : UUID → String → σ → Except DbError UUID × σ
  GetRoomMessages : UUID → σ → Except DbError (List pgstore.Message) × σ
  GetMessage : UUID → σ → Except DbError pgstore.Message × σ
  ReactToMessage : UUID → σ → Except DbError Int × σ
  CountReactions : UUID → σ → Except DbError Int × σ
  RemoveReactToMessage : UUID → σ → Except DbError Int × σ

/-- A call of a datastore query, with its arguments. -/
inductive Query where
  | GetRoom (id : UUID)
  | InsertMessage (roomID : UUID) (message : String)
  | GetRoomMessages (roomID : UUID)
  | GetMessage (id : UUID)
  | ReactToMessage (id : UUID)
  | CountReactions (id : UUID)
  | RemoveReactToMessage (id : UUID)
  deriving DecidableEq, Repr

/-- The value a handler encodes with `json.Marshal` and writes as the response body. -/
inductive Body where
  | createdMessage (ID : String) (Message : String)
  | roomMessages (rows : List pgstore.Message)
  | roomID (ID : String)
  | reactionCount (ReactionCount : Int)
  | error (Error : String)
  deriving DecidableEq, Repr

/-- One effect of a handler on the outside world. -/
inductive Effect where
  /-- A call `h.q.<Query>(r.Context(), ...)`. -/
  | query (q : Query)
  /-- A call `http.Error(w, text, code)`. -/
  | httpError (text : String) (code : Nat)
  /-- A call `w.Header().Set(key, value)`. -/
  | setHeader (key : String) (value : String)
  /-- A call `w.WriteHeader(code)`. -/
  | writeHeader (code : Nat)
  /-- A call `w.Write(data)`. -/
  | write (data : Body)
  /-- A call `h.uppgrader.Upgrade(w, r, nil)`. -/
  | upgrade
  /-- The statement `go h.notifyClients(msg)`. -/
  | goNotifyClients (msg : Message)
  /-- A call `conn.WriteJSON(msg)`. -/
  | WriteJSON (conn : Conn) (msg : Message)
  /-- A call `cancel()` of the cancel function stored under `conn`. -/
  | cancel (conn : Conn) (f : CancelFunc)
  /-- A call of `slog.Error`, `slog.Warn` or `slog.Info`. -/
  | slog (text : String)
  /-- The deferred call `c.Close()`. -/
  | Close (conn : Conn)
  deriving DecidableEq, Repr

/-- The part of a `*http.Request` the handlers read.  `URLParam` is the value of
`chi.URLParam(r, ...)`.  `Body` is the outcome of `json.NewDecoder(r.Body).Decode(&body)`:
`none` when decoding fails, else the decoded field. -/
structure Request where
  Method : String
  URLParam : String
  Body : Option String
  deriving DecidableEq, Repr

/-- What a handler has done when it returns: its effects in program order, and the state of the
datastore. -/
structure Result (σ : Type) where
  trace : List Effect
  db : σ

/-! ## The fan-out notifier -/

/-- The loop `for conn, cancel := range subscribers` of `notifyClients`.  `writeErr conn` tells
whether `conn.WriteJSON(msg)` returns an error. -/
def notifyClients.loop (writeErr : Conn → Bool) (msg : Message) :
    List (Sigma fun _ : Conn => CancelFunc) → List Effect
  | [] => []
  | ⟨conn, cancel⟩ :: rest =>
    if writeErr conn then
      Effect.WriteJSON conn msg :: Effect.slog "Failed to send message to client"
        :: Effect.cancel conn cancel :: notifyClients.loop writeErr msg rest
    else
      Effect.WriteJSON conn msg :: notifyClients.loop writeErr msg rest

/-- The method `apiHandler.notifyClients`, run with `mu` held from start to end.  It returns the
registry as it leaves it, and its effects. -/
def notifyClients (h : apiHandler) (writeErr : Conn → Bool) (msg : Message) :
    apiHandler × List Effect :=
  match h.subscribers.lookup msg.RoomId with
  | none => (h, [])
  | some subscribers =>
    if subscribers.entries.length = 0 then (h, [])
    else (h, notifyClients.loop writeErr msg subscribers.entries)

/-! ## The subscription handler -/

/-- The first locked section of `handleSubscribe` (lines 138 to 146): the connection `c` is
stored, with its cancel function, in the set of `rawRoomID`; the set is made when absent. -/
def handleSubscribe.register (rawRoomID : String) (c : Conn) (cancel : CancelFunc)
    (h : apiHandler) : apiHandler :=
  match h.subscribers.lookup rawRoomID with
  | some conns => ⟨h.subscribers.insert rawRoomID (conns.insert c cancel)⟩
  | none => ⟨h.subscribers.insert rawRoomID ((∅ : ConnSet).insert c cancel)⟩

/-- The second locked section of `handleSubscribe` (lines 148 to 150):
`delete(h.subscribers[rawRoomID], c)`.  When the key is absent the inner map is `nil`, and
`delete` on a `nil` map does nothing. -/
def handleSubscribe.unregister (rawRoomID : String) (c : Conn) (h : apiHandler) : apiHandler :=
  match h.subscribers.lookup rawRoomID with
  | some conns => ⟨h.subscribers.insert rawRoomID (conns.erase c)⟩
  | none => h

/-- What `handleSubscribe` has done when it either returns early or blocks on `<-ctx.Done()`. -/
structure Subscription (σ : Type) where
  trace : List Effect
  db : σ
  h : apiHandler
  /-- The connection and cancel function of the handler blocked on `<-ctx.Done()`; `none` when
  the handler has returned. -/
  blocked : Option (Conn × CancelFunc)

/-- The handler `handleSubscribe` up to `<-ctx.Done()` (lines 115 to 147).  `upgraded` is the
outcome of `h.uppgrader.Upgrade` if it is called (`none` for an error), `cancel` the cancel
function `context.WithCancel` returns if it is called. -/
def handleSubscribe {σ : Type} (q : pgstore.Queries σ) (upgraded : Option Conn)
    (cancel : CancelFunc) (r : Request) (h : apiHandler) (s : σ) : Subscription σ :=
  let rawRoomID := r.URLParam
  match uuidParse rawRoomID with
  | (_, false) => ⟨[Effect.httpError "invalid room id" 400], s, h, none⟩
  | (roomID, true) =>
    match q.GetRoom roomID s with
    | (Except.error DbError.ErrNoRows, s1) =>
      ⟨[Effect.query (Query.GetRoom roomID), Effect.httpError "room not found" 400], s1, h, none⟩
    | (Except.error DbError.other, s1) =>
      ⟨[Effect.query (Query.GetRoom roomID), Effect.httpError "something went wrong" 500],
        s1, h, none⟩
    | (Except.ok _, s1) =>
      match upgraded with
      | none =>
        ⟨[Effect.query (Query.GetRoom roomID), Effect.upgrade,
          Effect.slog "failed to upgrade connection",
          Effect.httpError "failed to upgrade to ws connection" 400], s1, h, none⟩
      | some c =>
        ⟨[Effect.query (Query.GetRoom roomID), Effect.upgrade,
          Effect.slog "new client connected"], s1,
          handleSubscribe.register rawRoomID c cancel h, some (c, cancel)⟩

/-- The handler `handleSubscribe` after `<-ctx.Done()` (lines 148 to 151), for the handler that
registered `c` under `r.URLParam`: the unregister section, then the deferred `c.Close()`. -/
def handleSubscribe.done (r : Request) (c : Conn) (h : apiHandler) : apiHandler × List Effect :=
  (handleSubscribe.unregister r.URLParam c h, [Effect.Close c])

/-! ## The HTTP handlers -/

/-- The handler `handleCreateRoomMessage`.  The error of `json.Marshal` is dropped by the
source (`data, _ :=`). -/
def handleCreateRoomMessage {σ : Type} (q : pgstore.Queries σ) (r : Request) (s : σ) :
    Result σ :=
  let rawRoomID := r.URLParam
  match uuidParse rawRoomID with
  | (_, false) => ⟨[Effect.httpError "invalid room id" 400], s⟩
  | (roomID, true) =>
    match q.GetRoom roomID s with
    | (Except.error DbError.ErrNoRows, s1) =>
      ⟨[Effect.query (Query.GetRoom roomID), Effect.httpError "room not found" 400], s1⟩
    | (Except.error DbError.other, s1) =>
      ⟨[Effect.query (Query.GetRoom roomID), Effect.httpError "something went wrong" 500], s1⟩
    | (Except.ok _, s1) =>
      match r.Body with
      | none =>
        ⟨[Effect.query (Query.GetRoom roomID), Effect.httpError "Invalid Json" 502], s1⟩
      | some message =>
        match q.InsertMessage roomID message s1 with
        | (Except.error _, s2) =>
          ⟨[Effect.query (Query.GetRoom roomID), Effect.query (Query.InsertMessage roomID message),
            Effect.slog "failed to insert message",
            Effect.httpError "something went wrong" 500], s2⟩
        | (Except.ok messageID, s2) =>
          ⟨[Effect.query (Query.GetRoom roomID), Effect.query (Query.InsertMessage roomID message),
            Effect.write (Body.createdMessage (uuidString messageID) message),
            Effect.goNotifyClients
              { Kind := MessageKindMessageCreated
                RoomId := rawRoomID
                Value := { ID := uuidString messageID, Message := message } }], s2⟩

/-- The handler `handleGetRoomMessages`.  After a failed `uuid.Parse` it logs and answers with
`http.Error`, and then goes on: that branch has no `return`, and `roomID` is the value
`uuid.Parse` returned with its error.  `json.Marshal` does not fail on a slice of rows, so the
branch on its error is left out. -/
def handleGetRoomMessages {σ : Type} (q : pgstore.Queries σ) (r : Request) (s : σ) :
    Result σ :=
  let rawRoomID := r.URLParam
  let parsed := uuidParse rawRoomID
  let roomID := parsed.1
  let pre : List Effect :=
    if parsed.2 then []
    else [Effect.slog "Nao deu certo o id da sala", Effect.httpError "Failed to compare uuid" 400]
  match q.GetRoomMessages roomID s with
  | (Except.error _, s1) =>
    ⟨pre ++ [Effect.query (Query.GetRoomMessages roomID),
      Effect.httpError "Failed to get message Room" 500], s1⟩
  | (Except.ok room, s1) =>
    ⟨pre ++ [Effect.query (Query.GetRoomMessages roomID), Effect.write (Body.roomMessages room)],
      s1⟩

/-- The handler `handleGetRoomMessage`.  `json.Marshal` does not fail on a struct with one
string field, so the branch on its error is left out. -/
def handleGetRoomMessage {σ : Type} (q : pgstore.Queries σ) (r : Request) (s : σ) :
    Result σ :=
  let rawMessageID := r.URLParam
  match uuidParse rawMessageID with
  | (_, false) => ⟨[Effect.httpError "Failed to compare uuid" 400], s⟩
  | (messageID, true) =>
    match q.GetMessage messageID s with
    | (Except.error _, s1) =>
      ⟨[Effect.query (Query.GetMessage messageID),
        Effect.httpError "Failed to get  Room message" 500], s1⟩
    | (Except.ok room, s1) =>
      ⟨[Effect.query (Query.GetMessage messageID),
        Effect.write (Body.roomID (uuidString room.RoomID))], s1⟩

/-- The end of `handleReactAndUnReactToMessage` (lines 338 to 355), reached from the `PATCH`
case and from the `DELETE` case after the decrement: `pre` are the effects so far, `res` the
pair `reactionCount, err`. -/
def handleReactAndUnReactToMessage.respond {σ : Type} (pre : List Effect)
    (res : Except DbError Int × σ) : Result σ :=
  match res with
  | (Except.error _, s1) => ⟨pre ++ [Effect.httpError "Failed to process request" 500], s1⟩
  | (Except.ok reactionCount, s1) => ⟨pre ++ [Effect.write (Body.reactionCount reactionCount)], s1⟩

/-- The handler `handleReactAndUnReactToMessage`.  `reactionCount` is a Go `int64`; the handler
only compares it with 0 and passes it on, so it is an `Int` here.  `json.Marshal` does not fail
on the two response structs, so the branches on its error are left out. -/
def handleReactAndUnReactToMessage {σ : Type} (q : pgstore.Queries σ) (r : Request) (s : σ) :
    Result σ :=
  let rawMessageID := r.URLParam
  match uuidParse rawMessageID with
  | (_, false) => ⟨[Effect.httpError "Failed to parse UUID" 400], s⟩
  | (messageID, true) =>
    if r.Method = "PATCH" then
      handleReactAndUnReactToMessage.respond [Effect.query (Query.ReactToMessage messageID)]
        (q.ReactToMessage messageID s)
    else if r.Method = "DELETE" then
      match q.CountReactions messageID s with
      | (Except.error _, s1) =>
        ⟨[Effect.query (Query.CountReactions messageID),
          Effect.httpError "Failed to count reactions" 500], s1⟩
      | (Except.ok reactionCount, s1) =>
        if reactionCount = 0 then
          ⟨[Effect.query (Query.CountReactions messageID),
            Effect.setHeader "Content-Type" "application/json",
            Effect.writeHeader 400,
            Effect.write (Body.error "Cannot decrease reactions below zero")], s1⟩
        else
          handleReactAndUnReactToMessage.respond
            [Effect.query (Query.CountReactions messageID),
              Effect.query (Query.RemoveReactToMessage messageID)]
            (q.RemoveReactToMessage messageID s1)
    else
      ⟨[Effect.httpError "Method not allowed" 405], s⟩

/-! ## Observations on registries and traces -/

/-- The connections in the subscriber set of the room key `R`; none when the key is absent. -/
def subscribersOf (h : apiHandler) (R : String) : List Conn :=
  match h.subscribers.lookup R with
  | some conns => conns.keys
  | none => []

/-- The cancel function stored under the connection `c` in the set of the room key `R`. -/
def cancelOf (h : apiHandler) (R : String) (c : Conn) : Option CancelFunc :=
  match h.subscribers.lookup R with
  | some conns => conns.lookup c
  | none => none

/-- Whether the effect is a call of `WriteJSON` on the connection `c`. -/
def Effect.isWriteTo (c : Conn) : Effect → Bool
  | Effect.WriteJSON conn _ => conn == c
  | _ => false

/-- Whether the effect is a call of the cancel function stored under the connection `c`. -/
def Effect.isCancelOf (c : Conn) : Effect → Bool
  | Effect.cancel conn _ => conn == c
  | _ => false

/-- Whether the effect is a datastore query. -/
def Effect.isQuery : Effect → Bool
  | Effect.query _ => true
  | _ => false

/-- Whether the effect writes to the HTTP response. -/
def Effect.isResponse : Effect → Bool
  | Effect.httpError _ _ => true
  | Effect.writeHeader _ => true
  | Effect.write _ => true
  | _ => false

/-- The number of writes attempted on the connection `c` in a trace. -/
def writeAttempts (c : Conn) (tr : List Effect) : Nat := tr.countP (Effect.isWriteTo c)

/-- The number of times the cancel function of the connection `c` is called in a trace. -/
def cancelFires (c : Conn) (tr : List Effect) : Nat := tr.countP (Effect.isCancelOf c)

/-- The messages handed to `go h.notifyClients(...)` in a trace, in order. -/
def spawnedNotifies : List Effect → List Message
  | [] => []
  | Effect.goNotifyClients msg :: rest => msg :: spawnedNotifies rest
  | _ :: rest => spawnedNotifies rest

/-! ## The registry as a transition system -/

/-- A connection is fresh for a registry when no room's set holds it.  `Upgrade` returns a newly
allocated `*websocket.Conn`; every key of the registry is a live pointer, so the new pointer
differs from all of them. -/
def Fresh (c : Conn) (h : apiHandler) : Prop := ∀ R : String, c ∉ subscribersOf h R

/-- The three sections of the program that hold `mu`. -/
inductive RegistryStep where
  /-- The first locked section of `handleSubscribe`. -/
  | register (rawRoomID : String) (c : Conn) (cancel : CancelFunc)
  /-- The second locked section of `handleSubscribe`. -/
  | unregister (rawRoomID : String) (c : Conn)
  /-- A whole call of `notifyClients`. -/
  | notify (writeErr : Conn → Bool) (msg : Message)

/-- The registry after a step. -/
def RegistryStep.apply : RegistryStep → apiHandler → apiHandler
  | RegistryStep.register rawRoomID c cancel, h => handleSubscribe.register rawRoomID c cancel h
  | RegistryStep.unregister rawRoomID c, h => handleSubscribe.unregister rawRoomID c h
  | RegistryStep.notify writeErr msg, h => (notifyClients h writeErr msg).1

/-- When the program can take a step: a register step stores a freshly upgraded connection. -/
def RegistryStep.enabled : RegistryStep → apiHandler → Prop
  | RegistryStep.register _ c _, h => Fresh c h
  | _, _ => True

/-- Whether a step registers the connection `c`. -/
def RegistryStep.registers (c : Conn) : RegistryStep → Prop
  | RegistryStep.register _ conn _ => conn = c
  | _ => False

/-- The registry after a sequence of steps. -/
def runSteps : List RegistryStep → apiHandler → apiHandler
  | [], h => h
  | st :: rest, h => runSteps rest (st.apply h)

/-- The registries the program can reach from the one `NewHandler` builds. -/
inductive Reachable : apiHandler → Prop where
  | init : Reachable NewHandler
  | step (h : apiHandler) (st : RegistryStep) :
      Reachable h → st.enabled h → Reachable (st.apply h)

/-! ## A datastore in memory -/

/-- State of the datastore in memory: the rooms, the messages (id, room, text) and the reaction
count of each message id. -/
structure MemStore where
  rooms : List UUID
  messages : List (UUID × UUID × String)
  reactions : UUID → Int

/-- The id the datastore in memory gives to its next message. -/
def MemStore.nextID (s : MemStore) : UUID :=
  List.replicate 15 0 ++ [(s.messages.length + 1) % 256]

/-- Modelled from the spec: the queries of `pgstore.Queries` (package `internal/store/pgstore`,
missing) over a datastore in memory.  `GetRoom` answers `pgx.ErrNoRows` for an unknown room;
`ReactToMessage` adds one to the count of the message and returns it, `RemoveReactToMessage`
subtracts one and returns it, `CountReactions` returns the count.  The arithmetic is the
datastore's, not Go's, and the counts are unbounded integers. -/
def MemStore.queries : pgstore.Queries MemStore where
  GetRoom id s :=
    if id ∈ s.rooms then (Except.ok (), s) else (Except.error DbError.ErrNoRows, s)
  InsertMessage roomID message s :=
    (Except.ok s.nextID, { s with messages := (s.nextID, roomID, message) :: s.messages })
  GetRoomMessages roomID s :=
    (Except.ok ((s.messages.filter fun m => m.2.1 = roomID).map fun m => ⟨m.2.1⟩), s)
  GetMessage id s :=
    match s.messages.find? fun m => m.1 = id with
    | some m => (Except.ok ⟨m.2.1⟩, s)
    | none => (Except.error DbError.ErrNoRows, s)
  ReactToMessage id s :=
    (Except.ok (s.reactions id + 1),
      { s with reactions := fun m => if m = id then s.reactions id + 1 else s.reactions m })
  CountReactions id s := (Except.ok (s.reactions id), s)
  RemoveReactToMessage id s :=
    (Except.ok (s.reactions id - 1),
      { s with reactions := fun m => if m = id then s.reactions id - 1 else s.reactions m })

/-- The datastore after `handleReactAndUnReactToMessage` has served the requests one after the
other. -/
def serveReactions : List Request → MemStore → MemStore
  | [], s => s
  | r :: rest, s => serveReactions rest (handleReactAndUnReactToMessage MemStore.queries r s).db

/-- The traces of `handleReactAndUnReactToMessage` serving the requests one after the other. -/
def reactionTraces : List Request → MemStore → List (List Effect)
  | [], _ => []
  | r :: rest, s =>
    (handleReactAndUnReactToMessage MemStore.queries r s).trace
      :: reactionTraces rest (handleReactAndUnReactToMessage MemStore.queries r s).db

/-! ## Example states -/

/-- The path value of a first room. -/
def roomR1 : String := "a0eebc99-9c0b-4ef8-bb6d-6bb9bd380a11"

/-- The path value of a second room. -/
def roomR2 : String := "b1ffcd00-0d1c-4fa9-8c7e-7cc0ce491b22"

/-- The path value of a third room. -/
def roomR3 : String := "c2aade11-1e2d-4ab0-9d8f-8dd1df5a2c33"

/-- A registry with the connections 1 and 2 under the key `roomR1` and 3 under `roomR2`. -/
def exampleHandler : apiHandler :=
  handleSubscribe.register roomR2 3 30
    (handleSubscribe.register roomR1 2 20 (handleSubscribe.register roomR1 1 10 NewHandler))

/-- A message-created event routed to the key `R`. -/
def exampleMessage (R : String) : Message :=
  { Kind := MessageKindMessageCreated, Value := { ID := "m1", Message := "hi" }, RoomId := R }

/-- The transport on which exactly the writes to the connection `a` fail. -/
def failsOn (a : Conn) : Conn → Bool := fun c => c == a

/-- The room id `a0eebc99-9c0b-4ef8-bb6d-6bb9bd380a11`. -/
def exampleRoomID : UUID :=
  [160, 238, 188, 153, 156, 11, 78, 248, 187, 109, 107, 185, 189, 56, 10, 17]

/-- A datastore with one room, no message and every reaction count 0. -/
def exampleStore : MemStore := ⟨[exampleRoomID], [], fun _ => 0⟩

/-- A datastore whose every query fails with an error other than `pgx.ErrNoRows`. -/
def brokenQueries : pgstore.Queries Unit where
  GetRoom _ s := (Except.error DbError.other, s)
  InsertMessage _ _ s := (Except.error DbError.other, s)
  GetRoomMessages _ s := (Except.error DbError.other, s)
  GetMessage _ s := (Except.error DbError.other, s)
  ReactToMessage _ s := (Except.error DbError.other, s)
  CountReactions _ s := (Except.error DbError.other, s)
  RemoveReactToMessage _ s := (Except.error DbError.other, s)

/-- A request with the path value `p`, the method `m` and the decoded body `b`. -/
def exampleRequest (m : String) (p : String) (b : Option String) : Request :=
  { Method := m, URLParam := p, Body := b }

/-- The path value of a message id. -/
def messageM1 : String := "d3bbef22-2f3e-4bc1-ae90-9ee2e06b3d44"

/-- The room of `roomR1`, written in upper case. -/
def roomR1Upper : String := "A0EEBC99-9C0B-4EF8-BB6D-6BB9BD380A11"

/-- The transport on which every write succeeds. -/
def neverFails : Conn → Bool := fun _ => false

/-! ## Lemmas on the notifier -/

theorem loop_writeAttempts (writeErr : Conn → Bool) (msg : Message) (c : Conn)
    (l : List (Sigma fun _ : Conn => CancelFunc)) :
    writeAttempts c (notifyClients.loop writeErr msg l) = l.keys.count c := by
  induction l with
  | nil => rfl
  | cons e rest ih =>
    obtain ⟨conn, cancel⟩ := e
    unfold writeAttempts at ih ⊢
    by_cases hw : writeErr conn = true
    · rw [notifyClients.loop, if_pos hw]
      by_cases hc : conn = c <;>
        simp [hc, List.countP_cons, Effect.isWriteTo, List.keys, ih, List.count_cons]
    · rw [notifyClients.loop, if_neg hw]
      by_cases hc : conn = c <;>
        simp [hc, List.countP_cons, Effect.isWriteTo, List.keys, ih, List.count_cons]

theorem loop_cancelFires (writeErr : Conn → Bool) (msg : Message) (c : Conn)
    (l : List (Sigma fun _ : Conn => CancelFunc)) :
    cancelFires c (notifyClients.loop writeErr msg l)
      = if writeErr c = true then l.keys.count c else 0 := by
  induction l with
  | nil => simp [notifyClients.loop, cancelFires]
  | cons e rest ih =>
    obtain ⟨conn, cancel⟩ := e
    unfold cancelFires at ih ⊢
    by_cases hw : writeErr conn = true
    · rw [notifyClients.loop, if_pos hw]
      by_cases hc : conn = c
      · subst hc
        simp [hw, List.countP_cons, Effect.isCancelOf, List.keys, ih, List.count_cons] at ih ⊢
      · by_cases hwc : writeErr c = true <;>
          simp [hc, hwc, List.countP_cons, Effect.isCancelOf, List.keys, List.count_cons] at ih ⊢
          <;> exact ih
    · rw [notifyClients.loop, if_neg hw]
      by_cases hc : conn = c
      · subst hc
        simp [hw, List.countP_cons, Effect.isCancelOf, List.keys, List.count_cons] at ih ⊢
        exact ih
      · by_cases hwc : writeErr c = true <;>
          simp [hc, hwc, List.countP_cons, Effect.isCancelOf, List.keys, List.count_cons] at ih ⊢
          <;> exact ih

theorem loop_write_mem (writeErr : Conn → Bool) (msg : Message) (c : Conn) (e : Message)
    (l : List (Sigma fun _ : Conn => CancelFunc))
    (hmem : Effect.WriteJSON c e ∈ notifyClients.loop writeErr msg l) :
    e = msg ∧ c ∈ l.keys := by
  induction l with
  | nil => simp [notifyClients.loop] at hmem
  | cons x rest ih =>
    obtain ⟨conn, cancel⟩ := x
    have key : (c = conn ∧ e = msg) ∨ Effect.WriteJSON c e ∈ notifyClients.loop writeErr msg rest := by
      by_cases hw : writeErr conn = true
      · rw [notifyClients.loop, if_pos hw] at hmem
        simpa using hmem
      · rw [notifyClients.loop, if_neg hw] at hmem
        simpa using hmem
    rcases key with ⟨h1, h2⟩ | hrest
    · exact ⟨h2, by simp [List.keys, h1]⟩
    · refine ⟨(ih hrest).1, ?_⟩
      have hk := (ih hrest).2
      simp only [List.keys, List.map_cons, List.mem_cons] at hk ⊢
      exact Or.inr hk

theorem loop_cancel_mem (writeErr : Conn → Bool) (msg : Message) (c : Conn) (f : CancelFunc)
    (l : List (Sigma fun _ : Conn => CancelFunc))
    (hmem : Effect.cancel c f ∈ notifyClients.loop writeErr msg l) :
    (⟨c, f⟩ : Sigma fun _ : Conn => CancelFunc) ∈ l ∧ writeErr c = true := by
  induction l with
  | nil => simp [notifyClients.loop] at hmem
  | cons x rest ih =>
    obtain ⟨conn, cancel⟩ := x
    have key : (c = conn ∧ f = cancel ∧ writeErr conn = true)
        ∨ Effect.cancel c f ∈ notifyClients.loop writeErr msg rest := by
      by_cases hw : writeErr conn = true
      · rw [notifyClients.loop, if_pos hw] at hmem
        simp only [List.mem_cons, Effect.cancel.injEq] at hmem
        rcases hmem with h0 | h0 | ⟨h1, h2⟩ | h0
        · cases h0
        · cases h0
        · exact Or.inl ⟨h1, h2, hw⟩
        · exact Or.inr h0
      · rw [notifyClients.loop, if_neg hw] at hmem
        simp only [List.mem_cons] at hmem
        rcases hmem with h0 | h0
        · cases h0
        · exact Or.inr h0
    rcases key with ⟨h1, h2, h3⟩ | hrest
    · subst h1; subst h2; exact ⟨List.mem_cons_self _ _, h3⟩
    · exact ⟨List.mem_cons_of_mem _ (ih hrest).1, (ih hrest).2⟩

/-- The trace of `notifyClients` is the loop over the entries of the room's set (nothing when
the key is absent). -/
theorem notifyClients_trace (h : apiHandler) (writeErr : Conn → Bool) (msg : Message) :
    (notifyClients h writeErr msg).2
      = match h.subscribers.lookup msg.RoomId with
        | some conns => notifyClients.loop writeErr msg conns.entries
        | none => [] := by
  unfold notifyClients
  cases hl : h.subscribers.lookup msg.RoomId with
  | none => rfl
  | some conns =>
    by_cases he : conns.entries.length = 0
    · have : conns.entries = [] := List.length_eq_zero.mp he
      simp [this, notifyClients.loop]
    · simp [he]

theorem notifyClients_registry (h : apiHandler) (writeErr : Conn → Bool) (msg : Message) :
    (notifyClients h writeErr msg).1 = h := by
  unfold notifyClients
  cases h.subscribers.lookup msg.RoomId with
  | none => rfl
  | some conns => by_cases he : conns.entries.length = 0 <;> simp [he]

theorem notifyClients_writeAttempts (h : apiHandler) (writeErr : Conn → Bool) (msg : Message)
    (c : Conn) :
    writeAttempts c (notifyClients h writeErr msg).2
      = if c ∈ subscribersOf h msg.RoomId then 1 else 0 := by
  rw [notifyClients_trace]
  unfold subscribersOf
  cases h.subscribers.lookup msg.RoomId with
  | none => simp [writeAttempts]
  | some conns =>
    simp only [loop_writeAttempts]
    exact List.count_eq_of_nodup conns.keys_nodup

theorem notifyClients_cancelFires (h : apiHandler) (writeErr : Conn → Bool) (msg : Message)
    (c : Conn) :
    cancelFires c (notifyClients h writeErr msg).2
      = if c ∈ subscribersOf h msg.RoomId ∧ writeErr c = true then 1 else 0 := by
  rw [notifyClients_trace]
  unfold subscribersOf
  cases h.subscribers.lookup msg.RoomId with
  | none => simp [cancelFires]
  | some conns =>
    simp only [loop_cancelFires]
    have hn : conns.entries.keys.count c = if c ∈ conns.keys then 1 else 0 :=
      List.count_eq_of_nodup conns.keys_nodup
    rw [hn]
    by_cases h1 : writeErr c = true <;> by_cases h2 : c ∈ conns.keys <;> simp [h1, h2]

/-! ## Lemmas on the registry -/

theorem subscribersOf_register (R R' : String) (c : Conn) (f : CancelFunc) (h : apiHandler)
    (c' : Conn) :
    c' ∈ subscribersOf (handleSubscribe.register R c f h) R'
      ↔ (R' = R ∧ c' = c) ∨ c' ∈ subscribersOf h R' := by
  unfold handleSubscribe.register subscribersOf
  by_cases hR : R' = R
  · subst hR
    cases hl : h.subscribers.lookup R' with
    | none => simp [AList.lookup_insert, ← AList.mem_keys, AList.mem_insert]
    | some conns =>
      simp only [AList.lookup_insert, true_and]
      rw [← AList.mem_keys, AList.mem_insert, AList.mem_keys]
  · cases hl : h.subscribers.lookup R with
    | none => simp [AList.lookup_insert_ne hR, hR]
    | some conns => simp [AList.lookup_insert_ne hR, hR]

theorem subscribersOf_unregister (R R' : String) (c : Conn) (h : apiHandler) (c' : Conn) :
    c' ∈ subscribersOf (handleSubscribe.unregister R c h) R'
      ↔ c' ∈ subscribersOf h R' ∧ ¬(R' = R ∧ c' = c) := by
  unfold handleSubscribe.unregister subscribersOf
  by_cases hR : R' = R
  · subst hR
    cases hl : h.subscribers.lookup R' with
    | none => simp [hl]
    | some conns =>
      simp only [AList.lookup_insert, ← AList.mem_keys, AList.mem_erase, hl]
      tauto
  · cases hl : h.subscribers.lookup R with
    | none => simp [hR]
    | some conns => simp [AList.lookup_insert_ne hR, hR]

theorem lookup_unregister_ne (R R' : String) (c : Conn) (h : apiHandler) (hR : R' ≠ R) :
    (handleSubscribe.unregister R c h).subscribers.lookup R' = h.subscribers.lookup R' := by
  unfold handleSubscribe.unregister
  cases hl : h.subscribers.lookup R with
  | none => rfl
  | some conns => simp [AList.lookup_insert_ne hR]

theorem cancelOf_unregister_ne (R R' : String) (c c' : Conn) (h : apiHandler) (hc : c' ≠ c) :
    cancelOf (handleSubscribe.unregister R c h) R' c' = cancelOf h R' c' := by
  unfold handleSubscribe.unregister cancelOf
  by_cases hR : R' = R
  · subst hR
    cases hl : h.subscribers.lookup R' with
    | none => simp [hl]
    | some conns => simp [AList.lookup_insert, AList.lookup_erase_ne hc, hl]
  · cases hl : h.subscribers.lookup R with
    | none => rfl
    | some conns => simp [AList.lookup_insert_ne hR]

theorem subscribersOf_NewHandler (R : String) : subscribersOf NewHandler R = [] := by
  simp [subscribersOf, NewHandler]

theorem mem_subscribersOf_of_cancelOf (h : apiHandler) (R : String) (c : Conn) (f : CancelFunc)
    (hc : cancelOf h R c = some f) : c ∈ subscribersOf h R := by
  unfold cancelOf at hc
  unfold subscribersOf
  cases hl : h.subscribers.lookup R with
  | none => simp [hl] at hc
  | some conns =>
    simp only [hl] at hc
    have : (conns.lookup c).isSome = true := by simp [hc]
    exact AList.mem_keys.mp (AList.lookup_isSome.mp this)

theorem loop_cancel_of_mem (writeErr : Conn → Bool) (msg : Message) (c : Conn) (f : CancelFunc)
    (l : List (Sigma fun _ : Conn => CancelFunc))
    (hmem : (⟨c, f⟩ : Sigma fun _ : Conn => CancelFunc) ∈ l) (hfail : writeErr c = true) :
    Effect.cancel c f ∈ notifyClients.loop writeErr msg l := by
  induction l with
  | nil => cases hmem
  | cons x rest ih =>
    obtain ⟨conn, cancel⟩ := x
    rcases List.mem_cons.mp hmem with heq | hrest
    · cases heq
      rw [notifyClients.loop, if_pos hfail]
      simp
    · by_cases hw : writeErr conn = true
      · rw [notifyClients.loop, if_pos hw]
        simp [ih hrest]
      · rw [notifyClients.loop, if_neg hw]
        simp [ih hrest]

theorem runSteps_not_mem (c : Conn) (R : String) (later : List RegistryStep) :
    ∀ h : apiHandler, c ∉ subscribersOf h R → (∀ st ∈ later, ¬ st.registers c) →
      c ∉ subscribersOf (runSteps later h) R := by
  induction later with
  | nil => intro h hc _; exact hc
  | cons st rest ih =>
    intro h hc hno
    apply ih
    · have hst := hno st (List.mem_cons_self _ _)
      cases st with
      | register R' c' f =>
        intro hmem
        rcases (subscribersOf_register R' R c' f h c).mp hmem with ⟨_, hcc⟩ | hold
        · exact hst hcc.symm
        · exact hc hold
      | unregister R' c' =>
        intro hmem
        exact hc ((subscribersOf_unregister R' R c' h c).mp hmem).1
      | notify writeErr msg =>
        simpa [RegistryStep.apply, notifyClients_registry] using hc
    · intro st' hst'
      exact hno st' (List.mem_cons_of_mem _ hst')

/-! ## The claims on the fan-out notifier -/

/-- C1: for every registry, transport and event, `notifyClients` attempts exactly one write to
each connection in the subscriber set of `msg.RoomId` and none to any other connection; every
write carries the event; when the key is absent or its set is empty there is no effect at all;
the registry is left as it was. -/
theorem notifyClients_delivers_to_room (h : apiHandler) (writeErr : Conn → Bool)
    (msg : Message) (c : Conn) :
    writeAttempts c (notifyClients h writeErr msg).2
        = (if c ∈ subscribersOf h msg.RoomId then 1 else 0)
      ∧ (∀ conn e, Effect.WriteJSON conn e ∈ (notifyClients h writeErr msg).2 →
          e = msg ∧ conn ∈ subscribersOf h msg.RoomId)
      ∧ (subscribersOf h msg.RoomId = [] → (notifyClients h writeErr msg).2 = [])
      ∧ (notifyClients h writeErr msg).1 = h := by
  refine ⟨notifyClients_writeAttempts h writeErr msg c, ?_, ?_,
    notifyClients_registry h writeErr msg⟩
  · intro conn e hmem
    rw [notifyClients_trace] at hmem
    unfold subscribersOf
    cases hl : h.subscribers.lookup msg.RoomId with
    | none => simp [hl] at hmem
    | some conns =>
      simp only [hl] at hmem
      exact loop_write_mem writeErr msg conn e conns.entries hmem
  · intro hempty
    rw [notifyClients_trace]
    unfold subscribersOf at hempty
    cases hl : h.subscribers.lookup msg.RoomId with
    | none => rfl
    | some conns =>
      simp only [hl] at hempty
      have he : conns.entries = [] := by
        have hk : conns.entries.keys = [] := hempty
        simpa [List.keys] using hk
      simp [he, notifyClients.loop]

/-- Witness of C1: a broadcast to the key `roomR3`, absent from the example registry, writes to
nobody, connection 3 of room `roomR2` included. -/
theorem notifyClients_delivers_to_room_witness :
    subscribersOf exampleHandler roomR3 = []
      ∧ (notifyClients exampleHandler (failsOn 1) (exampleMessage roomR3)).2 = []
      ∧ writeAttempts 3 (notifyClients exampleHandler (failsOn 1) (exampleMessage roomR3)).2 = 0 :=
  ⟨by decide,
    (notifyClients_delivers_to_room exampleHandler (failsOn 1) (exampleMessage roomR3) 3).2.2.1
      (by decide),
    by decide⟩

/-- C2: for every registry and every assignment of write outcomes, one call of `notifyClients`
calls the cancel function of a connection once when the connection is in the room's set and its
write failed, and never otherwise; the write is attempted once on every connection of the set,
whatever the outcomes on the others; a cancel function that is called is the one stored under
a connection whose write failed. -/
theorem notifyClients_cancels_failed_only (h : apiHandler) (writeErr : Conn → Bool)
    (msg : Message) (c : Conn) :
    cancelFires c (notifyClients h writeErr msg).2
        = (if c ∈ subscribersOf h msg.RoomId ∧ writeErr c = true then 1 else 0)
      ∧ writeAttempts c (notifyClients h writeErr msg).2
        = (if c ∈ subscribersOf h msg.RoomId then 1 else 0)
      ∧ (∀ conn f, Effect.cancel conn f ∈ (notifyClients h writeErr msg).2 →
          cancelOf h msg.RoomId conn = some f ∧ writeErr conn = true) := by
  refine ⟨notifyClients_cancelFires h writeErr msg c,
    notifyClients_writeAttempts h writeErr msg c, ?_⟩
  intro conn f hmem
  rw [notifyClients_trace] at hmem
  unfold cancelOf
  cases hl : h.subscribers.lookup msg.RoomId with
  | none => simp [hl] at hmem
  | some conns =>
    simp only [hl] at hmem
    have hm := loop_cancel_mem writeErr msg conn f conns.entries hmem
    exact ⟨Option.mem_def.mp (AList.mem_lookup_iff.mpr hm.1), hm.2⟩

/-- Witness of C2: in the example registry, with the write to connection 1 failing, the
broadcast to `roomR1` calls the cancel function 10 of connection 1. -/
theorem notifyClients_cancels_failed_only_witness :
    Effect.cancel 1 10 ∈ (notifyClients exampleHandler (failsOn 1) (exampleMessage roomR1)).2
      ∧ cancelOf exampleHandler roomR1 1 = some 10 ∧ failsOn 1 1 = true :=
  ⟨by decide,
    (notifyClients_cancels_failed_only exampleHandler (failsOn 1) (exampleMessage roomR1) 1).2.2
      1 10 (by decide)⟩

/-! ## The claims on the registry -/

/-- C3: once the unregister section of `handleSubscribe` has removed the connection `c` from
the set of `R`, no call of `notifyClients` for `R` writes to `c`, whatever steps the registry
takes in between (short of registering `c` again, which the program never does); every other
connection of `R` is still written to once and keeps its cancel function; the set of every
other room key is the same as before. -/
theorem unregister_stops_delivery (h : apiHandler) (R : String) (c : Conn) :
    (∀ (later : List RegistryStep) (writeErr : Conn → Bool) (msg : Message),
        msg.RoomId = R → (∀ st ∈ later, ¬ st.registers c) →
        writeAttempts c
          (notifyClients (runSteps later (handleSubscribe.unregister R c h)) writeErr msg).2 = 0)
      ∧ (∀ (conn : Conn) (writeErr : Conn → Bool) (msg : Message),
          msg.RoomId = R → conn ≠ c → conn ∈ subscribersOf h R →
          writeAttempts conn (notifyClients (handleSubscribe.unregister R c h) writeErr msg).2 = 1
            ∧ cancelOf (handleSubscribe.unregister R c h) R conn = cancelOf h R conn)
      ∧ (∀ R' : String, R' ≠ R →
          (handleSubscribe.unregister R c h).subscribers.lookup R' = h.subscribers.lookup R') := by
  refine ⟨?_, ?_, ?_⟩
  · intro later writeErr msg hR hno
    rw [notifyClients_writeAttempts, hR]
    have hgone : c ∉ subscribersOf (handleSubscribe.unregister R c h) R := by
      intro hmem
      exact ((subscribersOf_unregister R R c h c).mp hmem).2 ⟨rfl, rfl⟩
    simp [runSteps_not_mem c R later _ hgone hno]
  · intro conn writeErr msg hR hne hmem
    refine ⟨?_, cancelOf_unregister_ne R R c conn h hne⟩
    rw [notifyClients_writeAttempts, hR]
    have : conn ∈ subscribersOf (handleSubscribe.unregister R c h) R :=
      (subscribersOf_unregister R R c h conn).mpr ⟨hmem, fun hh => hne hh.2⟩
    simp [this]
  · intro R' hR
    exact lookup_unregister_ne R R' c h hR

/-- Witness of C3: in the example registry connection 1 leaves `roomR1`; after a broadcast and the
arrival of connection 4, a broadcast to `roomR1` does not write to 1; connection 2 is written to
right after the removal. -/
theorem unregister_stops_delivery_witness :
    writeAttempts 1
        (notifyClients
          (runSteps [RegistryStep.notify (failsOn 2) (exampleMessage roomR1),
              RegistryStep.register roomR1 4 40]
            (handleSubscribe.unregister roomR1 1 exampleHandler))
          (failsOn 2) (exampleMessage roomR1)).2 = 0
      ∧ writeAttempts 2
        (notifyClients (handleSubscribe.unregister roomR1 1 exampleHandler) (failsOn 2)
          (exampleMessage roomR1)).2 = 1
      ∧ (handleSubscribe.unregister roomR1 1 exampleHandler).subscribers.lookup roomR2
        = exampleHandler.subscribers.lookup roomR2 :=
  ⟨(unregister_stops_delivery exampleHandler roomR1 1).1 _ (failsOn 2) (exampleMessage roomR1) rfl
      (by
        intro st hst
        simp only [List.mem_cons, List.mem_singleton, List.not_mem_nil, or_false] at hst
        rcases hst with rfl | rfl
        · exact fun hh => hh
        · exact fun hh => by cases hh),
    ((unregister_stops_delivery exampleHandler roomR1 1).2.1 2 (failsOn 2) (exampleMessage roomR1) rfl
      (by decide) (by decide)).1,
    (unregister_stops_delivery exampleHandler roomR1 1).2.2 roomR2 (by decide)⟩

/-- C9: in every registry the program can reach from the one `NewHandler` builds, by register
sections that store a freshly upgraded connection, unregister sections and calls of
`notifyClients`, a connection in the set of one room key is in the set of no other. -/
theorem reachable_conn_in_one_room (h : apiHandler) (hr : Reachable h) (c : Conn)
    (R1 R2 : String) (hne : R1 ≠ R2) (h1 : c ∈ subscribersOf h R1) :
    c ∉ subscribersOf h R2 := by
  induction hr generalizing R1 R2 with
  | init => simp [subscribersOf_NewHandler] at h1
  | step h0 st _ hen ih =>
    cases st with
    | register R c' f =>
      intro h2
      have hfresh : ∀ R' : String, c' ∉ subscribersOf h0 R' := hen
      rcases (subscribersOf_register R R1 c' f h0 c).mp h1 with ⟨hR1, hc1⟩ | hold1
      · rcases (subscribersOf_register R R2 c' f h0 c).mp h2 with ⟨hR2, _⟩ | hold2
        · exact hne (hR1.trans hR2.symm)
        · exact hfresh R2 (hc1 ▸ hold2)
      · rcases (subscribersOf_register R R2 c' f h0 c).mp h2 with ⟨_, hc2⟩ | hold2
        · exact hfresh R1 (hc2 ▸ hold1)
        · exact ih R1 R2 hne hold1 hold2
    | unregister R c' =>
      intro h2
      exact ih R1 R2 hne ((subscribersOf_unregister R R1 c' h0 c).mp h1).1
        ((subscribersOf_unregister R R2 c' h0 c).mp h2).1
    | notify writeErr msg =>
      simp only [RegistryStep.apply, notifyClients_registry] at h1 ⊢
      exact ih R1 R2 hne h1

theorem exampleHandler_reachable : Reachable exampleHandler := by
  have f1 : Fresh 1 NewHandler := by
    intro R; simp [subscribersOf_NewHandler]
  have r1 := Reachable.step NewHandler (RegistryStep.register roomR1 1 10) Reachable.init f1
  have f2 : Fresh 2 (handleSubscribe.register roomR1 1 10 NewHandler) := by
    intro R hmem
    rcases (subscribersOf_register roomR1 R 1 10 NewHandler 2).mp hmem with ⟨_, hc⟩ | hold
    · exact absurd hc (by decide)
    · simp [subscribersOf_NewHandler] at hold
  have r2 := Reachable.step _ (RegistryStep.register roomR1 2 20) r1 f2
  have f3 : Fresh 3
      (handleSubscribe.register roomR1 2 20 (handleSubscribe.register roomR1 1 10 NewHandler)) := by
    intro R hmem
    rcases (subscribersOf_register roomR1 R 2 20 _ 3).mp hmem with ⟨_, hc⟩ | hold
    · exact absurd hc (by decide)
    · rcases (subscribersOf_register roomR1 R 1 10 NewHandler 3).mp hold with ⟨_, hc⟩ | hold2
      · exact absurd hc (by decide)
      · simp [subscribersOf_NewHandler] at hold2
  exact Reachable.step _ (RegistryStep.register roomR2 3 30) r2 f3

/-- Witness of C9: the example registry is reachable; connection 1 is in the set of `roomR1` and
not in the set of `roomR2`. -/
theorem reachable_conn_in_one_room_witness :
    Reachable exampleHandler ∧ 1 ∈ subscribersOf exampleHandler roomR1
      ∧ 1 ∉ subscribersOf exampleHandler roomR2 :=
  ⟨exampleHandler_reachable, by decide,
    reachable_conn_in_one_room exampleHandler exampleHandler_reachable 1 roomR1 roomR2 (by decide)
      (by decide)⟩

/-- Counterexample to C4: in the example registry the write to connection 1 fails during a
broadcast to `roomR1`; after the broadcast connection 1 is still in the set of `roomR1`, and the
next broadcast to `roomR1` writes to it again. -/
theorem failed_write_leaves_conn_registered :
    1 ∈ subscribersOf exampleHandler roomR1 ∧ failsOn 1 1 = true
      ∧ 1 ∈ subscribersOf
          (notifyClients exampleHandler (failsOn 1) (exampleMessage roomR1)).1 roomR1
      ∧ writeAttempts 1
          (notifyClients (notifyClients exampleHandler (failsOn 1) (exampleMessage roomR1)).1
            (failsOn 1) (exampleMessage roomR1)).2 = 1 := by
  decide

/-- C4, amended: if `A` is in the set of the room key of a broadcast and the write to `A`
fails, the broadcast calls the cancel function stored under `A` once and leaves `A` in the set;
once the handler of `A` has run the rest of `handleSubscribe` (the unregister section), `A` is
out of the set and no broadcast to that key writes to `A`. -/
theorem failed_write_cancels_then_unregister_removes (h : apiHandler) (writeErr : Conn → Bool)
    (msg : Message) (A : Conn) (f : CancelFunc) (r : Request)
    (hsub : cancelOf h msg.RoomId A = some f) (hfail : writeErr A = true)
    (hr : r.URLParam = msg.RoomId) :
    cancelFires A (notifyClients h writeErr msg).2 = 1
      ∧ Effect.cancel A f ∈ (notifyClients h writeErr msg).2
      ∧ A ∈ subscribersOf (notifyClients h writeErr msg).1 msg.RoomId
      ∧ A ∉ subscribersOf (handleSubscribe.done r A (notifyClients h writeErr msg).1).1 msg.RoomId
      ∧ (∀ (writeErr' : Conn → Bool) (msg' : Message), msg'.RoomId = msg.RoomId →
          writeAttempts A
            (notifyClients (handleSubscribe.done r A (notifyClients h writeErr msg).1).1
              writeErr' msg').2 = 0) := by
  have hmem : A ∈ subscribersOf h msg.RoomId := mem_subscribersOf_of_cancelOf h _ A f hsub
  have hgone : A ∉ subscribersOf (handleSubscribe.unregister msg.RoomId A h) msg.RoomId := by
    intro hm
    exact ((subscribersOf_unregister msg.RoomId msg.RoomId A h A).mp hm).2 ⟨rfl, rfl⟩
  refine ⟨?_, ?_, ?_, ?_, ?_⟩
  · rw [notifyClients_cancelFires]; simp [hmem, hfail]
  · rw [notifyClients_trace]
    unfold cancelOf at hsub
    cases hl : h.subscribers.lookup msg.RoomId with
    | none => simp [hl] at hsub
    | some conns =>
      simp only [hl] at hsub ⊢
      exact loop_cancel_of_mem writeErr msg A f conns.entries
        (AList.mem_lookup_iff.mp (Option.mem_def.mpr hsub)) hfail
  · rw [notifyClients_registry]; exact hmem
  · simpa [handleSubscribe.done, notifyClients_registry, hr] using hgone
  · intro writeErr' msg' hR
    rw [notifyClients_writeAttempts, hR]
    simp only [handleSubscribe.done, notifyClients_registry, hr]
    simp [hgone]

/-- Witness of C4, amended: the example registry, with the write to connection 1 failing. -/
theorem failed_write_cancels_then_unregister_removes_witness :
    cancelOf exampleHandler roomR1 1 = some 10
      ∧ Effect.cancel 1 10 ∈ (notifyClients exampleHandler (failsOn 1) (exampleMessage roomR1)).2
      ∧ 1 ∉ subscribersOf
          (handleSubscribe.done (exampleRequest "GET" roomR1 none) 1
            (notifyClients exampleHandler (failsOn 1) (exampleMessage roomR1)).1).1 roomR1 :=
  have w := failed_write_cancels_then_unregister_removes exampleHandler (failsOn 1)
    (exampleMessage roomR1) 1 10 (exampleRequest "GET" roomR1 none) (by decide) (by decide) rfl
  ⟨by decide, w.2.1, w.2.2.2.1⟩

/-! ## The claims on the HTTP handlers -/

/-- C5: a subscribe request whose room id is malformed, whose room is not in the datastore, or
whose lookup fails, is answered with one `http.Error` and nothing else happens: `Upgrade` is not
called, no connection is blocked, the registry is the same.  The status is 400 for a malformed
id and for a missing room, 500 for a datastore error. -/
theorem handleSubscribe_rejects_before_upgrade {σ : Type} (q : pgstore.Queries σ)
    (upgraded : Option Conn) (cancel : CancelFunc) (r : Request) (h : apiHandler) (s : σ) :
    ((uuidParse r.URLParam).2 = false →
        handleSubscribe q upgraded cancel r h s
          = ⟨[Effect.httpError "invalid room id" 400], s, h, none⟩)
      ∧ (∀ s1 : σ, (uuidParse r.URLParam).2 = true →
          q.GetRoom (uuidParse r.URLParam).1 s = (Except.error DbError.ErrNoRows, s1) →
          handleSubscribe q upgraded cancel r h s
            = ⟨[Effect.query (Query.GetRoom (uuidParse r.URLParam).1),
                Effect.httpError "room not found" 400], s1, h, none⟩)
      ∧ (∀ s1 : σ, (uuidParse r.URLParam).2 = true →
          q.GetRoom (uuidParse r.URLParam).1 s = (Except.error DbError.other, s1) →
          handleSubscribe q upgraded cancel r h s
            = ⟨[Effect.query (Query.GetRoom (uuidParse r.URLParam).1),
                Effect.httpError "something went wrong" 500], s1, h, none⟩)
      ∧ (((uuidParse r.URLParam).2 = false
            ∨ ∃ e s1, q.GetRoom (uuidParse r.URLParam).1 s = (Except.error e, s1)) →
          Effect.upgrade ∉ (handleSubscribe q upgraded cancel r h s).trace
            ∧ (handleSubscribe q upgraded cancel r h s).blocked = none
            ∧ (handleSubscribe q upgraded cancel r h s).h = h) := by
  rcases hpar : uuidParse r.URLParam with ⟨id, ok⟩
  refine ⟨?_, ?_, ?_, ?_⟩
  · intro hp
    simp only at hp; subst hp
    simp [handleSubscribe, hpar]
  · intro s1 hp hg
    simp only at hp hg; subst hp
    simp [handleSubscribe, hpar, hg]
  · intro s1 hp hg
    simp only at hp hg; subst hp
    simp [handleSubscribe, hpar, hg]
  · intro hbad
    cases ok with
    | false => simp [handleSubscribe, hpar]
    | true =>
      rcases hbad with hp | ⟨e, s1, hg⟩
      · simp at hp
      · simp only at hg
        cases e <;> simp [handleSubscribe, hpar, hg]

/-- Witness of C5: a malformed id, a room missing from the example datastore, and a datastore
whose queries fail. -/
theorem handleSubscribe_rejects_before_upgrade_witness :
    handleSubscribe MemStore.queries (some 7) 70 (exampleRequest "GET" "not-a-uuid" none)
        exampleHandler exampleStore
      = ⟨[Effect.httpError "invalid room id" 400], exampleStore, exampleHandler, none⟩
    ∧ (handleSubscribe MemStore.queries (some 7) 70 (exampleRequest "GET" roomR2 none)
        exampleHandler exampleStore).trace
      = [Effect.query (Query.GetRoom (uuidParse roomR2).1), Effect.httpError "room not found" 400]
    ∧ (handleSubscribe brokenQueries (some 7) 70 (exampleRequest "GET" roomR1 none)
        exampleHandler ()).trace
      = [Effect.query (Query.GetRoom (uuidParse roomR1).1),
          Effect.httpError "something went wrong" 500]
    ∧ Effect.upgrade ∉ (handleSubscribe brokenQueries (some 7) 70
        (exampleRequest "GET" roomR1 none) exampleHandler ()).trace :=
  ⟨(handleSubscribe_rejects_before_upgrade MemStore.queries (some 7) 70
      (exampleRequest "GET" "not-a-uuid" none) exampleHandler exampleStore).1 (by decide),
    congrArg Subscription.trace
      ((handleSubscribe_rejects_before_upgrade MemStore.queries (some 7) 70
        (exampleRequest "GET" roomR2 none) exampleHandler exampleStore).2.1 exampleStore
        (by decide) (by rfl)),
    congrArg Subscription.trace
      ((handleSubscribe_rejects_before_upgrade brokenQueries (some 7) 70
        (exampleRequest "GET" roomR1 none) exampleHandler ()).2.2.1 () (by decide) rfl),
    ((handleSubscribe_rejects_before_upgrade brokenQueries (some 7) 70
        (exampleRequest "GET" roomR1 none) exampleHandler ()).2.2.2
      (Or.inr ⟨DbError.other, (), rfl⟩)).1⟩

/-- The handlers other than `handleGetRoomMessages` return right after the `http.Error` that
answers a malformed id: no query, no other write, the datastore as it was. -/
theorem malformed_id_rejected {σ : Type} (q : pgstore.Queries σ) (r : Request) (s : σ)
    (hp : (uuidParse r.URLParam).2 = false) :
    handleCreateRoomMessage q r s = ⟨[Effect.httpError "invalid room id" 400], s⟩
      ∧ handleGetRoomMessage q r s = ⟨[Effect.httpError "Failed to compare uuid" 400], s⟩
      ∧ handleReactAndUnReactToMessage q r s
        = ⟨[Effect.httpError "Failed to parse UUID" 400], s⟩ := by
  rcases hpar : uuidParse r.URLParam with ⟨id, ok⟩
  rw [hpar] at hp
  simp only at hp; subst hp
  simp [handleCreateRoomMessage, handleGetRoomMessage, handleReactAndUnReactToMessage, hpar]

/-- The handler `handleGetRoomMessages` queries the datastore whatever `uuid.Parse` answers. -/
theorem handleGetRoomMessages_always_queries {σ : Type} (q : pgstore.Queries σ) (r : Request)
    (s : σ) :
    Effect.query (Query.GetRoomMessages (uuidParse r.URLParam).1)
      ∈ (handleGetRoomMessages q r s).trace := by
  rcases hq : q.GetRoomMessages (uuidParse r.URLParam).1 s with ⟨res, s1⟩
  cases res <;> simp [handleGetRoomMessages, hq]

/-- C6, at the failing input: `handleGetRoomMessages` on the path value `not-a-uuid`.  The id
does not parse; the handler answers 400, then queries the datastore with the zero UUID and
writes a second body: one query and two writes to the response, where the claim has no query
and one write. -/
theorem handleGetRoomMessages_goes_on_after_parse_error :
    (uuidParse "not-a-uuid").2 = false
      ∧ (handleGetRoomMessages MemStore.queries (exampleRequest "GET" "not-a-uuid" none)
          exampleStore).trace
        = [Effect.slog "Nao deu certo o id da sala",
            Effect.httpError "Failed to compare uuid" 400,
            Effect.query (Query.GetRoomMessages UUID.Nil),
            Effect.write (Body.roomMessages [])]
      ∧ ((handleGetRoomMessages MemStore.queries (exampleRequest "GET" "not-a-uuid" none)
          exampleStore).trace.filter Effect.isQuery).length = 1
      ∧ ((handleGetRoomMessages MemStore.queries (exampleRequest "GET" "not-a-uuid" none)
          exampleStore).trace.filter Effect.isResponse).length = 2 := by
  decide

theorem handleReact_nonneg (r : Request) (s : MemStore) (hs : ∀ m, 0 ≤ s.reactions m) :
    ∀ m, 0 ≤ (handleReactAndUnReactToMessage MemStore.queries r s).db.reactions m := by
  intro m
  have h1 := hs m
  rcases hpar : uuidParse r.URLParam with ⟨id, ok⟩
  have h2 := hs id
  cases ok with
  | false => simpa [handleReactAndUnReactToMessage, hpar] using h1
  | true =>
    by_cases hpatch : r.Method = "PATCH"
    · simp only [handleReactAndUnReactToMessage, hpar, hpatch, if_true, MemStore.queries,
        handleReactAndUnReactToMessage.respond]
      split <;> omega
    · by_cases hdel : r.Method = "DELETE"
      · by_cases hz : s.reactions id = 0
        · simpa [handleReactAndUnReactToMessage, hpar, hdel, MemStore.queries, hz] using h1
        · have hne : ¬ ("DELETE" = "PATCH") := by decide
          simp only [handleReactAndUnReactToMessage, hpar, hdel, hne, if_true, if_false,
            MemStore.queries, hz, handleReactAndUnReactToMessage.respond]
          split <;> omega
      · simpa [handleReactAndUnReactToMessage, hpar, hpatch, hdel] using h1

theorem serveReactions_nonneg (reqs : List Request) :
    ∀ s : MemStore, (∀ m, 0 ≤ s.reactions m) → ∀ m, 0 ≤ (serveReactions reqs s).reactions m := by
  induction reqs with
  | nil => intro s hs; exact hs
  | cons r rest ih =>
    intro s hs
    exact ih _ (handleReact_nonneg r s hs)

/-- C7: an unreact (`DELETE`) request for a message whose count the datastore reports as 0 is
answered with status 400 and the error body; the only query is `CountReactions`, so no
decrement is issued, and the datastore is as `CountReactions` left it.  Over the datastore in
memory, where react adds one and remove-react subtracts one, the rejected request changes
nothing, and no sequence of requests served one after the other from counts 0 makes a count
negative; two reacts give 1 and 2, two unreacts give 1 and 0, a third unreact is rejected and
the count stays 0. -/
theorem unreact_at_zero_rejected {σ : Type} (q : pgstore.Queries σ) (r : Request) (s s1 : σ)
    (hm : r.Method = "DELETE") (hp : (uuidParse r.URLParam).2 = true)
    (hc : q.CountReactions (uuidParse r.URLParam).1 s = (Except.ok 0, s1)) :
    handleReactAndUnReactToMessage q r s
        = ⟨[Effect.query (Query.CountReactions (uuidParse r.URLParam).1),
            Effect.setHeader "Content-Type" "application/json", Effect.writeHeader 400,
            Effect.write (Body.error "Cannot decrease reactions below zero")], s1⟩
      ∧ (∀ s0 : MemStore, s0.reactions (uuidParse r.URLParam).1 = 0 →
          (handleReactAndUnReactToMessage MemStore.queries r s0).db = s0)
      ∧ (∀ (reqs : List Request) (s0 : MemStore), (∀ m, s0.reactions m = 0) →
          ∀ m, 0 ≤ (serveReactions reqs s0).reactions m)
      ∧ reactionTraces
          [exampleRequest "PATCH" messageM1 none, exampleRequest "PATCH" messageM1 none,
            exampleRequest "DELETE" messageM1 none, exampleRequest "DELETE" messageM1 none,
            exampleRequest "DELETE" messageM1 none] exampleStore
        = [[Effect.query (Query.ReactToMessage (uuidParse messageM1).1),
              Effect.write (Body.reactionCount 1)],
            [Effect.query (Query.ReactToMessage (uuidParse messageM1).1),
              Effect.write (Body.reactionCount 2)],
            [Effect.query (Query.CountReactions (uuidParse messageM1).1),
              Effect.query (Query.RemoveReactToMessage (uuidParse messageM1).1),
              Effect.write (Body.reactionCount 1)],
            [Effect.query (Query.CountReactions (uuidParse messageM1).1),
              Effect.query (Query.RemoveReactToMessage (uuidParse messageM1).1),
              Effect.write (Body.reactionCount 0)],
            [Effect.query (Query.CountReactions (uuidParse messageM1).1),
              Effect.setHeader "Content-Type" "application/json", Effect.writeHeader 400,
              Effect.write (Body.error "Cannot decrease reactions below zero")]]
      ∧ (serveReactions
          [exampleRequest "PATCH" messageM1 none, exampleRequest "PATCH" messageM1 none,
            exampleRequest "DELETE" messageM1 none, exampleRequest "DELETE" messageM1 none,
            exampleRequest "DELETE" messageM1 none] exampleStore).reactions
          (uuidParse messageM1).1 = 0 := by
  have hne : ¬ ("DELETE" = "PATCH") := by decide
  rcases hpar : uuidParse r.URLParam with ⟨id, ok⟩
  rw [hpar] at hp hc
  simp only at hp hc; subst hp
  refine ⟨?_, ?_, ?_, ?_, ?_⟩
  · simp [handleReactAndUnReactToMessage, hpar, hm, hc]
  · intro s0 hz
    simp [handleReactAndUnReactToMessage, hpar, hm, MemStore.queries, hz]
  · intro reqs s0 hs
    exact serveReactions_nonneg reqs s0 (fun m => by rw [hs m])
  · decide
  · decide

/-- Witness of C7: an unreact request for the message `messageM1` on the example datastore,
where every count is 0. -/
theorem unreact_at_zero_rejected_witness :
    (handleReactAndUnReactToMessage MemStore.queries (exampleRequest "DELETE" messageM1 none)
        exampleStore).trace
      = [Effect.query (Query.CountReactions (uuidParse messageM1).1),
          Effect.setHeader "Content-Type" "application/json", Effect.writeHeader 400,
          Effect.write (Body.error "Cannot decrease reactions below zero")]
    ∧ (handleReactAndUnReactToMessage MemStore.queries (exampleRequest "DELETE" messageM1 none)
        exampleStore).db.reactions (uuidParse messageM1).1 = 0
    ∧ 0 ≤ (serveReactions [exampleRequest "DELETE" messageM1 none,
        exampleRequest "PATCH" messageM1 none] exampleStore).reactions (uuidParse messageM1).1 :=
  have w := unreact_at_zero_rejected MemStore.queries (exampleRequest "DELETE" messageM1 none)
    exampleStore exampleStore rfl (by decide) (by rfl)
  ⟨congrArg Result.trace w.1,
    (congrArg (fun x => x.reactions (uuidParse messageM1).1) (w.2.1 exampleStore rfl)).trans rfl,
    w.2.2.1 _ exampleStore (fun _ => rfl) _⟩

/-! ## The message-creation trigger -/

theorem handleCreateRoomMessage_ok {σ : Type} (q : pgstore.Queries σ) (r : Request)
    (s s1 s2 : σ) (message : String) (messageID : UUID)
    (hp : (uuidParse r.URLParam).2 = true)
    (hg : q.GetRoom (uuidParse r.URLParam).1 s = (Except.ok (), s1))
    (hb : r.Body = some message)
    (hi : q.InsertMessage (uuidParse r.URLParam).1 message s1 = (Except.ok messageID, s2)) :
    handleCreateRoomMessage q r s
      = ⟨[Effect.query (Query.GetRoom (uuidParse r.URLParam).1),
          Effect.query (Query.InsertMessage (uuidParse r.URLParam).1 message),
          Effect.write (Body.createdMessage (uuidString messageID) message),
          Effect.goNotifyClients
            { Kind := "message_created"
              Value := { ID := uuidString messageID, Message := message }
              RoomId := r.URLParam }], s2⟩ := by
  rcases hpar : uuidParse r.URLParam with ⟨id, ok⟩
  rw [hpar] at hp hg hi
  simp only at hp hg hi; subst hp
  simp [handleCreateRoomMessage, hpar, hg, hb, hi, MessageKindMessageCreated]

theorem handleCreateRoomMessage_cases {σ : Type} (q : pgstore.Queries σ) (r : Request) (s : σ) :
    spawnedNotifies (handleCreateRoomMessage q r s).trace = []
      ∨ ∃ (s1 s2 : σ) (message : String) (messageID : UUID),
          (uuidParse r.URLParam).2 = true
            ∧ q.GetRoom (uuidParse r.URLParam).1 s = (Except.ok (), s1)
            ∧ r.Body = some message
            ∧ q.InsertMessage (uuidParse r.URLParam).1 message s1 = (Except.ok messageID, s2) := by
  rcases hpar : uuidParse r.URLParam with ⟨id, ok⟩
  cases ok with
  | false => left; simp [handleCreateRoomMessage, hpar, spawnedNotifies]
  | true =>
    rcases hg : q.GetRoom id s with ⟨res, s1⟩
    cases res with
    | error e => left; cases e <;> simp [handleCreateRoomMessage, hpar, hg, spawnedNotifies]
    | ok u =>
      cases hb : r.Body with
      | none => left; simp [handleCreateRoomMessage, hpar, hg, hb, spawnedNotifies]
      | some message =>
        rcases hi : q.InsertMessage id message s1 with ⟨res2, s2⟩
        cases res2 with
        | error e => left; simp [handleCreateRoomMessage, hpar, hg, hb, hi, spawnedNotifies]
        | ok messageID => right; exact ⟨s1, s2, message, messageID, rfl, rfl, rfl, hi⟩

/-- C8: `handleCreateRoomMessage` hands a message to `go h.notifyClients` only when the id
parses, the room lookup succeeds, the body decodes and `InsertMessage` succeeds; in that case
its effects are, in this order, the two queries, the response and one notify, whose message has
the kind `message_created`, the value made of the string form of the new id and the text of
the request, and the room key of the request. -/
theorem handleCreateRoomMessage_notifies_after_insert {σ : Type} (q : pgstore.Queries σ)
    (r : Request) (s : σ) :
    (∀ msg : Message, msg ∈ spawnedNotifies (handleCreateRoomMessage q r s).trace →
        ∃ (s1 s2 : σ) (message : String) (messageID : UUID),
          (uuidParse r.URLParam).2 = true
            ∧ q.GetRoom (uuidParse r.URLParam).1 s = (Except.ok (), s1)
            ∧ r.Body = some message
            ∧ q.InsertMessage (uuidParse r.URLParam).1 message s1 = (Except.ok messageID, s2))
      ∧ (∀ (s1 s2 : σ) (message : String) (messageID : UUID),
          (uuidParse r.URLParam).2 = true →
          q.GetRoom (uuidParse r.URLParam).1 s = (Except.ok (), s1) →
          r.Body = some message →
          q.InsertMessage (uuidParse r.URLParam).1 message s1 = (Except.ok messageID, s2) →
          handleCreateRoomMessage q r s
              = ⟨[Effect.query (Query.GetRoom (uuidParse r.URLParam).1),
                  Effect.query (Query.InsertMessage (uuidParse r.URLParam).1 message),
                  Effect.write (Body.createdMessage (uuidString messageID) message),
                  Effect.goNotifyClients
                    { Kind := "message_created"
                      Value := { ID := uuidString messageID, Message := message }
                      RoomId := r.URLParam }], s2⟩
            ∧ spawnedNotifies (handleCreateRoomMessage q r s).trace
              = [{ Kind := "message_created"
                   Value := { ID := uuidString messageID, Message := message }
                   RoomId := r.URLParam }]) := by
  refine ⟨?_, ?_⟩
  · intro msg hmsg
    rcases handleCreateRoomMessage_cases q r s with hnone | hsome
    · rw [hnone] at hmsg; cases hmsg
    · exact hsome
  · intro s1 s2 message messageID hp hg hb hi
    have hok := handleCreateRoomMessage_ok q r s s1 s2 message messageID hp hg hb hi
    exact ⟨hok, by rw [hok]; rfl⟩

/-- Witness of C8: the message `hi` created in the room of the example datastore; and a request
for a room the datastore does not have, which spawns no notify. -/
theorem handleCreateRoomMessage_notifies_after_insert_witness :
    spawnedNotifies
        (handleCreateRoomMessage MemStore.queries (exampleRequest "POST" roomR1 (some "hi"))
          exampleStore).trace
      = [{ Kind := "message_created"
           Value := { ID := "00000000-0000-0000-0000-000000000001", Message := "hi" }
           RoomId := roomR1 }]
    ∧ spawnedNotifies
        (handleCreateRoomMessage MemStore.queries (exampleRequest "POST" roomR2 (some "hi"))
          exampleStore).trace = [] :=
  ⟨((handleCreateRoomMessage_notifies_after_insert MemStore.queries
        (exampleRequest "POST" roomR1 (some "hi")) exampleStore).2 exampleStore
      { exampleStore with messages := [(exampleStore.nextID, exampleRoomID, "hi")] } "hi"
      exampleStore.nextID (by decide) (by rfl) rfl (by rfl)).2.trans (by decide),
    by decide⟩

/-! ## The room key -/

theorem handleSubscribe_blocked {σ : Type} (q : pgstore.Queries σ) (upgraded : Option Conn)
    (cancel : CancelFunc) (r : Request) (h : apiHandler) (s : σ) (c : Conn) (f : CancelFunc)
    (hb : (handleSubscribe q upgraded cancel r h s).blocked = some (c, f)) :
    (handleSubscribe q upgraded cancel r h s).h = handleSubscribe.register r.URLParam c f h
      ∧ (uuidParse r.URLParam).2 = true := by
  rcases hpar : uuidParse r.URLParam with ⟨id, ok⟩
  cases ok with
  | false => simp [handleSubscribe, hpar] at hb
  | true =>
    rcases hg : q.GetRoom id s with ⟨res, s1⟩
    cases res with
    | error e => cases e <;> simp [handleSubscribe, hpar, hg] at hb
    | ok u =>
      cases upgraded with
      | none => simp [handleSubscribe, hpar, hg] at hb
      | some c' =>
        simp only [handleSubscribe, hpar, hg, Option.some.injEq, Prod.mk.injEq] at hb ⊢
        obtain ⟨h1, h2⟩ := hb
        subst h1; subst h2
        exact ⟨rfl, trivial⟩

theorem loop_write_of_mem (writeErr : Conn → Bool) (msg : Message) (c : Conn)
    (l : List (Sigma fun _ : Conn => CancelFunc)) (hmem : c ∈ l.keys) :
    Effect.WriteJSON c msg ∈ notifyClients.loop writeErr msg l := by
  induction l with
  | nil => simp [List.keys] at hmem
  | cons x rest ih =>
    obtain ⟨conn, cancel⟩ := x
    have hcases : c = conn ∨ c ∈ rest.keys := by
      simpa [List.keys] using hmem
    by_cases hw : writeErr conn = true
    · rw [notifyClients.loop, if_pos hw]
      rcases hcases with hc | hc
      · simp [hc]
      · simp [ih hc]
    · rw [notifyClients.loop, if_neg hw]
      rcases hcases with hc | hc
      · simp [hc]
      · simp [ih hc]

theorem notifyClients_write_of_mem (h : apiHandler) (writeErr : Conn → Bool) (msg : Message)
    (c : Conn) (hmem : c ∈ subscribersOf h msg.RoomId) :
    Effect.WriteJSON c msg ∈ (notifyClients h writeErr msg).2 := by
  rw [notifyClients_trace]
  unfold subscribersOf at hmem
  cases hl : h.subscribers.lookup msg.RoomId with
  | none => simp [hl] at hmem
  | some conns =>
    simp only [hl] at hmem ⊢
    exact loop_write_of_mem writeErr msg c conns.entries hmem

/-- Counterexample to C10: the path values `roomR1Upper` and `roomR1` parse to the same room
id.  A connection subscribed through the first is stored under the key `roomR1Upper`; the
message created through the second is routed to the key `roomR1`, and its broadcast writes to
nobody. -/
theorem same_room_other_spelling_not_delivered :
    uuidParse roomR1Upper = uuidParse roomR1 ∧ (uuidParse roomR1).2 = true
      ∧ (handleSubscribe MemStore.queries (some 7) 70 (exampleRequest "GET" roomR1Upper none)
          NewHandler exampleStore).blocked = some (7, 70)
      ∧ spawnedNotifies
          (handleCreateRoomMessage MemStore.queries (exampleRequest "POST" roomR1 (some "hi"))
            exampleStore).trace
        = [{ Kind := "message_created"
             Value := { ID := "00000000-0000-0000-0000-000000000001", Message := "hi" }
             RoomId := roomR1 }]
      ∧ (notifyClients
          (handleSubscribe MemStore.queries (some 7) 70 (exampleRequest "GET" roomR1Upper none)
            NewHandler exampleStore).h neverFails
          { Kind := "message_created"
            Value := { ID := "00000000-0000-0000-0000-000000000001", Message := "hi" }
            RoomId := roomR1 }).2 = [] := by
  decide

/-- C10, amended: `handleSubscribe` stores a connection under the path value of its request, and
`handleCreateRoomMessage` routes the event to the path value of its request, both as they are
written.  When the two path values are the same string, the broadcast of the event of a created
message writes that event once to the subscribed connection. -/
theorem subscriber_receives_on_same_path_value {σ : Type} (q : pgstore.Queries σ)
    (upgraded : Option Conn) (cancel : CancelFunc) (r1 r2 : Request) (h : apiHandler)
    (s s' : σ) (c : Conn) (f : CancelFunc) (msg : Message) (writeErr : Conn → Bool)
    (hsub : (handleSubscribe q upgraded cancel r1 h s).blocked = some (c, f))
    (hpath : r2.URLParam = r1.URLParam)
    (hmsg : msg ∈ spawnedNotifies (handleCreateRoomMessage q r2 s').trace) :
    msg.RoomId = r2.URLParam ∧ msg.Kind = "message_created"
      ∧ c ∈ subscribersOf (handleSubscribe q upgraded cancel r1 h s).h r1.URLParam
      ∧ writeAttempts c
          (notifyClients (handleSubscribe q upgraded cancel r1 h s).h writeErr msg).2 = 1
      ∧ Effect.WriteJSON c msg
          ∈ (notifyClients (handleSubscribe q upgraded cancel r1 h s).h writeErr msg).2 := by
  obtain ⟨hh, _⟩ := handleSubscribe_blocked q upgraded cancel r1 h s c f hsub
  have hin : c ∈ subscribersOf (handleSubscribe q upgraded cancel r1 h s).h r1.URLParam := by
    rw [hh]
    exact (subscribersOf_register r1.URLParam r1.URLParam c f h c).mpr (Or.inl ⟨rfl, rfl⟩)
  have hshape : msg.RoomId = r2.URLParam ∧ msg.Kind = "message_created" := by
    rcases handleCreateRoomMessage_cases q r2 s' with hnone | ⟨s1, s2, message, messageID, hp,
      hg, hb, hi⟩
    · rw [hnone] at hmsg; cases hmsg
    · rw [handleCreateRoomMessage_ok q r2 s' s1 s2 message messageID hp hg hb hi] at hmsg
      simp only [spawnedNotifies, List.mem_singleton] at hmsg
      subst hmsg
      exact ⟨rfl, rfl⟩
  have hin' : c ∈ subscribersOf (handleSubscribe q upgraded cancel r1 h s).h msg.RoomId := by
    rw [hshape.1, hpath]; exact hin
  refine ⟨hshape.1, hshape.2, hin, ?_, notifyClients_write_of_mem _ writeErr msg c hin'⟩
  rw [notifyClients_writeAttempts]
  simp [hin']

/-- Witness of C10, amended: connection 7 subscribed through `roomR1` is written the event of
the message `hi` created through `roomR1`. -/
theorem subscriber_receives_on_same_path_value_witness :
    Effect.WriteJSON 7
        { Kind := "message_created"
          Value := { ID := "00000000-0000-0000-0000-000000000001", Message := "hi" }
          RoomId := roomR1 }
      ∈ (notifyClients
          (handleSubscribe MemStore.queries (some 7) 70 (exampleRequest "GET" roomR1 none)
            NewHandler exampleStore).h neverFails
          { Kind := "message_created"
            Value := { ID := "00000000-0000-0000-0000-000000000001", Message := "hi" }
            RoomId := roomR1 }).2 :=
  (subscriber_receives_on_same_path_value MemStore.queries (some 7) 70
    (exampleRequest "GET" roomR1 none) (exampleRequest "POST" roomR1 (some "hi")) NewHandler
    exampleStore exampleStore 7 70 _ neverFails (by decide) rfl (by decide)).2.2.2.2

end Api
